import Mathlib

/-!
Shallow embedding of `examples/ray-finetune-llm-deepspeed/utils_offline.py`.

Strings are modelled as `List Char`.  The local filesystem is modelled as an
explicit state `FS` (a list of files with contents, and a list of existing
directories); every effectful function threads this state and returns it even
on failure, matching Python semantics where side effects performed before an
exception persist.  The S3 object store is modelled as two parameters: a
partial map `store : bucket → key → Option body` (for `get_object` /
`download_file`) and a listing `listKeys : bucket → List key` (for the
`list_objects_v2` paginator, which the code consumes as one logical listing).
UTF-8 decoding of an object body is treated as given (bodies are character
lists); `str.strip()` is modelled with `Char.isWhitespace`.
-/

namespace UtilsOffline

/-- Errors raised by the module: `ValueError(f"Invalid S3 URI: {s3_uri}")`,
store failures (`get_object` / `download_file` on a missing object), and
local filesystem failures from directory creation. -/
inductive Err where
  | invalidURI (uri : List Char) : Err
  | storeError : Err
  | fsError : Err
deriving DecidableEq, Repr

deriving instance DecidableEq for Except

/-- Python `s.split(c, 1)`: split at the first occurrence of `c`; `none`
when `c` does not occur. -/
def splitFirst (c : Char) : List Char → Option (List Char × List Char)
  | [] => none
  | x :: xs =>
    if x = c then some ([], xs)
    else
      match splitFirst c xs with
      | none => none
      | some (a, b) => some (x :: a, b)

/-- Python `s.rstrip("/")`: remove all trailing `'/'` characters. -/
def rstripSlash (s : List Char) : List Char :=
  List.rdropWhile (fun c => c = '/') s

/-- Embedding of `_parse_s3_uri` (utils_offline.py lines 15-27):
require the `"s3://"` scheme, split the rest at the first `'/'` into bucket
and prefix (empty prefix when there is no `'/'`), and right-strip `'/'`
from the prefix. -/
def parse_s3_uri (s3_uri : List Char) : Except Err (List Char × List Char) :=
  if ("s3://".data).isPrefixOf s3_uri then
    match splitFirst '/' (s3_uri.drop 5) with
    | some (bucket, p) => .ok (bucket, rstripSlash p)
    | none => .ok (s3_uri.drop 5, rstripSlash [])
  else
    .error (.invalidURI s3_uri)

/-- Python `model_id.replace('/', '--')`. -/
def replaceSlash : List Char → List Char
  | [] => []
  | c :: rest => (if c = '/' then ['-', '-'] else [c]) ++ replaceSlash rest

/-- Embedding of `get_mirror_link` (lines 141-146). -/
def get_mirror_link (model_id : List Char) : List Char :=
  "s3://llama-2-weights/models--".data ++ replaceSlash model_id

/-- Python `s.strip()`: drop leading and trailing whitespace. -/
def pyStrip (s : List Char) : List Char :=
  List.rdropWhile Char.isWhitespace (s.dropWhile Char.isWhitespace)

/-- Python `s.lower()` (ASCII case fold suffices for the filter's use). -/
def pyLower (s : List Char) : List Char := s.map Char.toLower

/-- Python `needle in hay` substring containment. -/
def containsSub (needle : List Char) : List Char → Bool
  | [] => needle.isEmpty
  | c :: t => needle.isPrefixOf (c :: t) || containsSub needle t

/-- The local filesystem state: files (path, content) and directories. -/
structure FS where
  files : List (List Char × List Char)
  dirs : List (List Char)
deriving DecidableEq, Repr

/-- Overwrite the first file named `p` with content `c`, or append a new
file: the effect of `open(p, "w"); f.write(c)`. -/
def writeList (p c : List Char) : List (List Char × List Char) → List (List Char × List Char)
  | [] => [(p, c)]
  | f :: t => if f.1 = p then (p, c) :: t else f :: writeList p c t

def writeFile (fs : FS) (p c : List Char) : FS :=
  { fs with files := writeList p c fs.files }

def lookupList (p : List Char) : List (List Char × List Char) → Option (List Char)
  | [] => none
  | f :: t => if f.1 = p then some f.2 else lookupList p t

/-- Content of the file at path `p`, if present. -/
def lookupFile (fs : FS) (p : List Char) : Option (List Char) :=
  lookupList p fs.files

/-- Python `p.split('/')` (never returns an empty list). -/
def splitPath : List Char → List (List Char)
  | [] => [[]]
  | c :: rest =>
    if c = '/' then [] :: splitPath rest
    else
      match splitPath rest with
      | [] => [[c]]
      | s :: t => (c :: s) :: t

/-- Join path segments back with `'/'`. -/
def joinSegs : List (List Char) → List Char
  | [] => []
  | [s] => s
  | s :: r :: t => s ++ '/' :: joinSegs (r :: t)

/-- All ancestor paths of `p` (each initial run of segments, rejoined),
ending with `p` itself: the directories `os.makedirs` creates. -/
def ancestorPaths (p : List Char) : List (List Char) :=
  (List.range (splitPath p).length).map
    (fun i => joinSegs ((splitPath p).take (i + 1)))

def insertDir (ds : List (List Char)) (d : List Char) : List (List Char) :=
  if d ∈ ds then ds else ds ++ [d]

/-- Embedding of `os.makedirs(p, exist_ok=...)` (and of
`pathlib.Path(p).mkdir(parents=True, exist_ok=True)`): fails if some needed
path segment already exists as a file, or if the directory exists and
`exist_ok` is false; otherwise records the directory and all its ancestors. -/
def makedirs (fs : FS) (p : List Char) (exist_ok : Bool) : Except Err FS :=
  if (ancestorPaths p).any (fun a => fs.files.any (fun f => f.1 = a)) then
    .error .fsError
  else if exist_ok = false ∧ p ∈ fs.dirs then
    .error .fsError
  else
    .ok { fs with dirs := (ancestorPaths p).foldl insertDir fs.dirs }

/-- Python `os.path.join(a, b)` (posix, two components). -/
def osJoin (a b : List Char) : List Char :=
  if b.head? = some '/' then b
  else if a = [] then b
  else if a.getLast? = some '/' then a ++ b
  else a ++ '/' :: b

/-- The key fetched by the Ref Resolver:
`f"{prefix}/refs/main" if prefix else "refs/main"`. -/
def refKey (pfx : List Char) : List Char :=
  if pfx ≠ [] then pfx ++ "/refs/main".data else "refs/main".data

/-- Embedding of `get_hash_from_bucket` (lines 48-65): parse the URI, fetch
`refs/main` under the prefix, strip the decoded body, write it to the local
file `main`, and return it.  The state is returned unchanged on failure. -/
def get_hash_from_bucket (store : List Char → List Char → Option (List Char))
    (bucket_uri : List Char) (fs : FS) : Except Err (List Char) × FS :=
  match parse_s3_uri bucket_uri with
  | .error e => (.error e, fs)
  | .ok (bucket, pfx) =>
    match store bucket (refKey pfx) with
    | none => (.error .storeError, fs)
    | some raw =>
      let body := pyStrip raw
      (.ok body, writeFile fs "main".data body)

/-- Embedding of `get_download_path` (lines 94-97); `cache` stands for
`TRANSFORMERS_CACHE`. -/
def get_download_path (cache model_id : List Char) : List Char :=
  osJoin cache ("models--".data ++ replaceSlash model_id)

/-- Embedding of `get_checkpoint_and_refs_dir` (lines 68-91). -/
def get_checkpoint_and_refs_dir (cache : List Char)
    (store : List Char → List Char → Option (List Char))
    (model_id bucket_uri : List Char) (mkdir : Bool) (fs : FS) :
    Except Err (List Char × List Char) × FS :=
  match get_hash_from_bucket store bucket_uri fs with
  | (.error e, fs₁) => (.error e, fs₁)
  | (.ok f_hash, fs₁) =>
    let path := osJoin cache ("models--".data ++ replaceSlash model_id)
    let refs_dir := osJoin path "refs".data
    let checkpoint_dir := osJoin (osJoin path "snapshots".data) f_hash
    if mkdir then
      match makedirs fs₁ refs_dir true with
      | .error e => (.error e, fs₁)
      | .ok fs₂ =>
        match makedirs fs₂ checkpoint_dir true with
        | .error e => (.error e, fs₂)
        | .ok fs₃ => (.ok (checkpoint_dir, refs_dir), fs₃)
    else
      (.ok (checkpoint_dir, refs_dir), fs₁)

/-- `pathlib.Path(p).parent`. -/
def parentDir (p : List Char) : List Char :=
  let segs := splitPath p
  if segs.length ≤ 1 then ['.'] else joinSegs segs.dropLast

/-- Embedding of `_ensure_parent_dir` (lines 42-43). -/
def ensure_parent_dir (fs : FS) (p : List Char) : Except Err FS :=
  makedirs fs (parentDir p) true

/-- The body of the listing loop of `download_model` (lines 121-136): skip
directory placeholders, compute the path relative to the prefix, apply the
tokenizer-only filter, ensure the parent directory, and download. -/
def downloadLoop (store : List Char → List Char → Option (List Char))
    (bucket pfx path : List Char) (tokenizer_only : Bool) :
    List (List Char) → FS → Except Err Unit × FS
  | [], fs => (.ok (), fs)
  | key :: keys, fs =>
    if key.getLast? = some '/' then
      downloadLoop store bucket pfx path tokenizer_only keys fs
    else
      let rel := if pfx ≠ [] then key.drop (pfx.length + 1) else key
      if tokenizer_only && !containsSub "token".data (pyLower rel) then
        downloadLoop store bucket pfx path tokenizer_only keys fs
      else
        let dest := osJoin path rel
        match ensure_parent_dir fs dest with
        | .error e => (.error e, fs)
        | .ok fs₁ =>
          match store bucket key with
          | none => (.error .storeError, fs₁)
          | some content =>
            downloadLoop store bucket pfx path tokenizer_only keys
              (writeFile fs₁ dest content)

/-- Embedding of `download_model` (lines 100-138): create the destination
root, parse the URI, list the keys under `prefix + "/"` (all keys of the
bucket when the prefix is empty), and run the download loop. -/
def download_model (cache : List Char)
    (store : List Char → List Char → Option (List Char))
    (listKeys : List Char → List (List Char))
    (model_id bucket_uri : List Char) (tokenizer_only : Bool) (fs : FS) :
    Except Err Unit × FS :=
  match makedirs fs (get_download_path cache model_id) true with
  | .error e => (.error e, fs)
  | .ok fs₁ =>
    match parse_s3_uri bucket_uri with
    | .error e => (.error e, fs₁)
    | .ok (bucket, pfx) =>
      downloadLoop store bucket pfx (get_download_path cache model_id)
        tokenizer_only
        (if pfx ≠ [] then
          (listKeys bucket).filter (fun k => (pfx ++ ['/']).isPrefixOf k)
        else
          listKeys bucket) fs₁

/-! ### Helper lemmas about the string operations -/

theorem splitFirst_not_mem (c : Char) (l : List Char) (h : c ∉ l) :
    splitFirst c l = none := by
  induction l with
  | nil => rfl
  | cons x xs ih =>
    have hx : x ≠ c := fun he => h (he ▸ List.mem_cons_self x xs)
    have hxs : c ∉ xs := fun hm => h (List.mem_cons_of_mem x hm)
    simp [splitFirst, hx, ih hxs]

theorem splitFirst_append (c : Char) (b p : List Char) (h : c ∉ b) :
    splitFirst c (b ++ c :: p) = some (b, p) := by
  induction b with
  | nil => simp [splitFirst]
  | cons x xs ih =>
    have hx : x ≠ c := fun he => h (he ▸ List.mem_cons_self x xs)
    have hxs : c ∉ xs := fun hm => h (List.mem_cons_of_mem x hm)
    simp [splitFirst, hx, ih hxs]

theorem slash_not_mem_replaceSlash (m : List Char) : '/' ∉ replaceSlash m := by
  induction m with
  | nil => simp [replaceSlash]
  | cons c rest ih =>
    intro hmem
    rw [replaceSlash, List.mem_append] at hmem
    rcases hmem with hmem | hmem
    · by_cases hc : c = '/'
      · rw [if_pos hc] at hmem
        simp at hmem
      · rw [if_neg hc] at hmem
        simp at hmem
        exact hc hmem.symm
    · exact ih hmem

theorem rstripSlash_eq_self (l : List Char)
    (h : ∀ hl : l ≠ [], l.getLast hl ≠ '/') : rstripSlash l = l := by
  rw [rstripSlash, List.rdropWhile_eq_self_iff]
  intro hl
  simpa using h hl

theorem rstripSlash_idem (l : List Char) :
    rstripSlash (rstripSlash l) = rstripSlash l :=
  List.rdropWhile_idempotent _ _

theorem rstripSlash_concat (l : List Char) (y : Char) (hy : y ≠ '/') :
    rstripSlash (l ++ [y]) = l ++ [y] :=
  List.rdropWhile_concat_neg _ _ _ (by simp [hy])

theorem rstripSlash_models_replaceSlash (m : List Char) :
    rstripSlash ("models--".data ++ replaceSlash m) =
      "models--".data ++ replaceSlash m := by
  have hmem := slash_not_mem_replaceSlash m
  generalize hre : replaceSlash m = b
  rw [hre] at hmem
  induction b using List.reverseRecOn with
  | nil => decide
  | append_singleton ys y _ =>
    have hy : y ≠ '/' := fun he => hmem (by simp [he])
    rw [← List.append_assoc]
    exact rstripSlash_concat _ y hy

/-! ### C8: the Mirror-Link Builder -/

/-- C8: `get_mirror_link` is a pure function of the model identifier: it
always returns the fixed template `"s3://llama-2-weights/models--"` followed
by the identifier with every `'/'` replaced by `"--"`; in particular
`get_mirror_link "org/model" = "s3://llama-2-weights/models--org--model"`. -/
theorem get_mirror_link_pure_template :
    (∀ m : List Char,
      get_mirror_link m = "s3://llama-2-weights/models--".data ++ replaceSlash m) ∧
    get_mirror_link "org/model".data =
      "s3://llama-2-weights/models--org--model".data :=
  ⟨fun _ => rfl, by decide⟩

/-! ### C4: the parser fails with InvalidURI exactly on non-s3 URIs -/

/-- C4: `_parse_s3_uri` fails with `InvalidURI` naming the offending string
if and only if the input does not start with `"s3://"`; on any input with
the scheme it returns a result and raises no error. -/
theorem parse_s3_uri_invalid_uri_iff (s : List Char) :
    (("s3://".data).isPrefixOf s = false →
      parse_s3_uri s = .error (.invalidURI s)) ∧
    (("s3://".data).isPrefixOf s = true →
      ∃ b p, parse_s3_uri s = .ok (b, p)) ∧
    (∀ e, parse_s3_uri s = .error e →
      e = .invalidURI s ∧ ("s3://".data).isPrefixOf s = false) := by
  by_cases h : ("s3://".data).isPrefixOf s = true
  · refine ⟨fun hf => absurd h (by simp [hf]), fun _ => ?_, fun e he => ?_⟩
    · rw [parse_s3_uri, if_pos h]
      cases hsp : splitFirst '/' (s.drop 5) with
      | none => exact ⟨s.drop 5, rstripSlash [], by simp [hsp]⟩
      | some bp => exact ⟨bp.1, rstripSlash bp.2, by simp [hsp]⟩
    · rw [parse_s3_uri, if_pos h] at he
      cases hsp : splitFirst '/' (s.drop 5) with
      | none => simp [hsp] at he
      | some bp => simp [hsp] at he
  · have hf : ("s3://".data).isPrefixOf s = false := by
      cases hb : ("s3://".data).isPrefixOf s
      · rfl
      · exact absurd hb h
    refine ⟨fun _ => ?_, fun ht => absurd ht h, fun e he => ?_⟩
    · rw [parse_s3_uri, if_neg h]
    · rw [parse_s3_uri, if_neg h] at he
      exact ⟨by injection he with h1; exact h1.symm, hf⟩

/-- Witness for C4 at the spec's example `"http://x/y"`. -/
theorem parse_s3_uri_invalid_uri_example :
    parse_s3_uri "http://x/y".data = .error (.invalidURI "http://x/y".data) :=
  (parse_s3_uri_invalid_uri_iff "http://x/y".data).1 (by decide)

/-! ### C6: the invariant of parsed results (corrected: bucket may be empty) -/

/-- C6 counterexample: the claimed invariant "the bucket component is
non-empty for every successfully parsed input" is false: `_parse_s3_uri`
succeeds on `"s3:///x"` with an empty bucket. -/
theorem parse_s3_uri_empty_bucket_cex :
    ¬ (∀ s b p, parse_s3_uri s = .ok (b, p) → b ≠ []) :=
  fun h => h "s3:///x".data [] "x".data (by decide) rfl

/-- C6 amended: for every input on which `_parse_s3_uri` succeeds, the input
starts with `"s3://"` and the returned prefix has no trailing slash (it is a
fixed point of right-stripping `'/'`); the bucket, however, may be empty
(e.g. for `"s3://"` and `"s3:///x"`). -/
theorem parse_s3_uri_ok_invariant (s b p : List Char)
    (h : parse_s3_uri s = .ok (b, p)) :
    ("s3://".data).isPrefixOf s = true ∧ rstripSlash p = p := by
  by_cases hpre : ("s3://".data).isPrefixOf s = true
  · refine ⟨hpre, ?_⟩
    cases hsp : splitFirst '/' (s.drop 5) with
    | none =>
      rw [parse_s3_uri, if_pos hpre, hsp] at h
      simp only [Except.ok.injEq, Prod.mk.injEq] at h
      rw [← h.2]
      exact rstripSlash_idem []
    | some bp =>
      obtain ⟨b1, p1⟩ := bp
      rw [parse_s3_uri, if_pos hpre, hsp] at h
      simp only [Except.ok.injEq, Prod.mk.injEq] at h
      rw [← h.2]
      exact rstripSlash_idem p1
  · rw [parse_s3_uri, if_neg hpre] at h
    exact absurd h (by simp)

/-- Witness for the amended C6 at `"s3://b/x/"`. -/
theorem parse_s3_uri_ok_invariant_example :
    ("s3://".data).isPrefixOf "s3://b/x/".data = true ∧
    rstripSlash "x".data = "x".data :=
  parse_s3_uri_ok_invariant "s3://b/x/".data "b".data "x".data (by decide)

/-! ### C3: the parser on inputs with the scheme -/

/-- C3: for every input starting with `"s3://"`, `_parse_s3_uri` succeeds
and returns the segment up to the first `'/'` after the scheme as the
bucket and the remainder with all trailing `'/'` removed as the prefix;
when no `'/'` follows the bucket the prefix is empty.  (The parser is a
pure function: its type has no state or effect.) -/
theorem parse_s3_uri_valid (s : List Char)
    (h : ("s3://".data).isPrefixOf s = true) :
    (('/' ∉ s.drop 5) → parse_s3_uri s = .ok (s.drop 5, [])) ∧
    (∀ b p, s.drop 5 = b ++ '/' :: p → '/' ∉ b →
      parse_s3_uri s = .ok (b, rstripSlash p)) := by
  constructor
  · intro hnm
    rw [parse_s3_uri, if_pos h, splitFirst_not_mem '/' _ hnm]
    rfl
  · intro b p hsplit hb
    rw [parse_s3_uri, if_pos h, hsplit, splitFirst_append '/' b p hb]

/-- Witness for C3 at the spec's two examples. -/
theorem parse_s3_uri_valid_examples :
    parse_s3_uri "s3://my-bucket/models/llama".data =
      .ok ("my-bucket".data, "models/llama".data) ∧
    parse_s3_uri "s3://my-bucket".data = .ok ("my-bucket".data, []) :=
  ⟨((parse_s3_uri_valid "s3://my-bucket/models/llama".data (by decide)).2
      "my-bucket".data "models/llama".data (by decide) (by decide)).trans
    (by decide),
   (parse_s3_uri_valid "s3://my-bucket".data (by decide)).1 (by decide)⟩

/-! ### C10: round trip between the Mirror-Link Builder and the parser -/

/-- C10: for every model identifier `m`, parsing the mirror link succeeds
and yields bucket `"llama-2-weights"` and prefix `"models--"` followed by
`m` with every `'/'` replaced by `"--"`; nothing is stripped from the
prefix since it never ends in `'/'`. -/
theorem mirror_link_parse_round_trip (m : List Char) :
    parse_s3_uri (get_mirror_link m) =
      .ok ("llama-2-weights".data, "models--".data ++ replaceSlash m) := by
  have hpre : ("s3://".data).isPrefixOf (get_mirror_link m) = true := by
    rw [List.isPrefixOf_iff_prefix]
    exact ⟨"llama-2-weights/models--".data ++ replaceSlash m, rfl⟩
  have hdrop : (get_mirror_link m).drop 5 =
      "llama-2-weights".data ++ '/' :: ("models--".data ++ replaceSlash m) := rfl
  rw [parse_s3_uri, if_pos hpre, hdrop, splitFirst_append '/' _ _ (by decide)]
  show Except.ok ("llama-2-weights".data,
    rstripSlash ("models--".data ++ replaceSlash m)) = _
  rw [rstripSlash_models_replaceSlash m]

/-! ### C1: the Bulk Downloader on the spec's store listing -/

/-- The empty local filesystem. -/
def fsEmpty : FS := ⟨[], []⟩

/-- Concrete store for the C1 scenario: two real objects under
`models/llama` in bucket `b`. -/
def storeC1 (bucket key : List Char) : Option (List Char) :=
  if bucket = "b".data ∧ key = "models/llama/config.json".data then
    some "cfg".data
  else if bucket = "b".data ∧ key = "models/llama/tokenizer/vocab.txt".data then
    some "vocab".data
  else none

/-- Concrete listing for the C1 scenario, including the directory
placeholder `models/llama/dir/`. -/
def listKeysC1 (bucket : List Char) : List (List Char) :=
  if bucket = "b".data then
    ["models/llama/config.json".data,
     "models/llama/tokenizer/vocab.txt".data,
     "models/llama/dir/".data]
  else []

/-- C1: on the listing `["models/llama/config.json",
"models/llama/tokenizer/vocab.txt", "models/llama/dir/"]` under prefix
`models/llama`, `download_model` with `tokenizer_only = false` succeeds and
downloads exactly the two non-placeholder objects to
`<root>/config.json` and `<root>/tokenizer/vocab.txt` (the root being
`get_download_path`'s result, each destination the key relative to the
prefix); with `tokenizer_only = true` it downloads only
`<root>/tokenizer/vocab.txt`. -/
theorem download_model_listing_example :
    get_download_path "/cache".data "org/model".data =
      "/cache/models--org--model".data ∧
    ((download_model "/cache".data storeC1 listKeysC1 "org/model".data
        "s3://b/models/llama".data false fsEmpty).1 = .ok () ∧
      (download_model "/cache".data storeC1 listKeysC1 "org/model".data
        "s3://b/models/llama".data false fsEmpty).2.files =
        [("/cache/models--org--model/config.json".data, "cfg".data),
         ("/cache/models--org--model/tokenizer/vocab.txt".data, "vocab".data)]) ∧
    ((download_model "/cache".data storeC1 listKeysC1 "org/model".data
        "s3://b/models/llama".data true fsEmpty).1 = .ok () ∧
      (download_model "/cache".data storeC1 listKeysC1 "org/model".data
        "s3://b/models/llama".data true fsEmpty).2.files =
        [("/cache/models--org--model/tokenizer/vocab.txt".data, "vocab".data)]) := by
  decide

/-! ### C2: the Ref Resolver -/

theorem get_hash_eval (uri bucket pfx : List Char)
    (hparse : parse_s3_uri uri = .ok (bucket, pfx))
    (store : List Char → List Char → Option (List Char)) (raw : List Char)
    (hstore : store bucket (refKey pfx) = some raw) (fs : FS) :
    get_hash_from_bucket store uri fs =
      (.ok (pyStrip raw), writeFile fs "main".data (pyStrip raw)) := by
  rw [get_hash_from_bucket, hparse]
  show (match store bucket (refKey pfx) with
    | none => (Except.error Err.storeError, fs)
    | some raw => (Except.ok (pyStrip raw), writeFile fs "main".data (pyStrip raw))) = _
  rw [hstore]

theorem get_hash_eval_none (uri bucket pfx : List Char)
    (hparse : parse_s3_uri uri = .ok (bucket, pfx))
    (store : List Char → List Char → Option (List Char))
    (hstore : store bucket (refKey pfx) = none) (fs : FS) :
    get_hash_from_bucket store uri fs = (.error .storeError, fs) := by
  rw [get_hash_from_bucket, hparse]
  show (match store bucket (refKey pfx) with
    | none => (Except.error Err.storeError, fs)
    | some raw => (Except.ok (pyStrip raw), writeFile fs "main".data (pyStrip raw))) = _
  rw [hstore]

theorem get_hash_eval_err (uri : List Char) (e : Err)
    (hparse : parse_s3_uri uri = .error e)
    (store : List Char → List Char → Option (List Char)) (fs : FS) :
    get_hash_from_bucket store uri fs = (.error e, fs) := by
  rw [get_hash_from_bucket, hparse]

/-- Inversion: a successful `get_hash_from_bucket` call came from a
successful parse and a present object, returns the stripped body, and its
only filesystem effect is writing the file `main`. -/
theorem get_hash_ok_inv (store : List Char → List Char → Option (List Char))
    (uri : List Char) (fs : FS) (h : List Char) (fs₁ : FS)
    (he : get_hash_from_bucket store uri fs = (.ok h, fs₁)) :
    ∃ bucket pfx raw, parse_s3_uri uri = .ok (bucket, pfx) ∧
      store bucket (refKey pfx) = some raw ∧ h = pyStrip raw ∧
      fs₁ = writeFile fs "main".data h := by
  cases hp : parse_s3_uri uri with
  | error e =>
    rw [get_hash_eval_err uri e hp store fs] at he
    simp at he
  | ok bp =>
    obtain ⟨bucket, pfx⟩ := bp
    cases hs : store bucket (refKey pfx) with
    | none =>
      rw [get_hash_eval_none uri bucket pfx hp store hs fs] at he
      simp at he
    | some raw =>
      rw [get_hash_eval uri bucket pfx hp store raw hs fs] at he
      simp only [Prod.mk.injEq, Except.ok.injEq] at he
      exact ⟨bucket, pfx, raw, rfl, hs, he.1.symm, by rw [← he.2, he.1]⟩

/-- C2: for every URI the parser accepts and every body stored at
`<prefix>/refs/main` (`refs/main` when the prefix is empty),
`get_hash_from_bucket` returns the whitespace-trimmed body and writes
exactly that trimmed string to the local file `main`. -/
theorem get_hash_from_bucket_spec (uri bucket pfx : List Char)
    (hparse : parse_s3_uri uri = .ok (bucket, pfx))
    (store : List Char → List Char → Option (List Char)) (raw : List Char)
    (hstore : store bucket (refKey pfx) = some raw) (fs : FS) :
    get_hash_from_bucket store uri fs =
      (.ok (pyStrip raw), writeFile fs "main".data (pyStrip raw)) :=
  get_hash_eval uri bucket pfx hparse store raw hstore fs

/-- Concrete store for the C2 witness: `models/llama/refs/main` in bucket
`b` holds `" abc123\n"`. -/
def storeC2 (bucket key : List Char) : Option (List Char) :=
  if bucket = "b".data ∧ key = "models/llama/refs/main".data then
    some " abc123\n".data
  else none

/-- Witness for C2 at the spec's example: the body `" abc123\n"` yields
return value `"abc123"` and the file `main` containing exactly `"abc123"`. -/
theorem get_hash_from_bucket_spec_example :
    get_hash_from_bucket storeC2 "s3://b/models/llama".data fsEmpty =
      (.ok "abc123".data, writeFile fsEmpty "main".data "abc123".data) :=
  (get_hash_from_bucket_spec "s3://b/models/llama".data "b".data
      "models/llama".data (by decide) storeC2 " abc123\n".data (by decide)
      fsEmpty).trans (by decide)

/-! ### Filesystem lemmas -/

theorem lookupList_writeList (p c : List Char)
    (l : List (List Char × List Char)) :
    lookupList p (writeList p c l) = some c := by
  induction l with
  | nil => simp [writeList, lookupList]
  | cons f t ih =>
    rw [writeList]
    split_ifs with hf
    · simp [lookupList]
    · rw [lookupList, if_neg hf]
      exact ih

theorem mem_writeList (p c : List Char) (l : List (List Char × List Char))
    (g : List Char × List Char) (h : g ∈ writeList p c l) :
    g = (p, c) ∨ g ∈ l := by
  induction l with
  | nil => simpa [writeList] using h
  | cons f t ih =>
    rw [writeList] at h
    split_ifs at h with hf
    · rcases List.mem_cons.mp h with rfl | hmem
      · exact .inl rfl
      · exact .inr (List.mem_cons_of_mem f hmem)
    · rcases List.mem_cons.mp h with rfl | hmem
      · exact .inr (List.mem_cons_self _ _)
      · rcases ih hmem with h1 | h1
        · exact .inl h1
        · exact .inr (List.mem_cons_of_mem f h1)

/-- Well-formed local state for the claims about absolute cache paths:
every file has a non-empty, relative (not `'/'`-rooted) name.  It holds of
the empty state and is preserved by the module's own file writes (the only
file the module writes is the relative `main`). -/
def goodFiles (fs : FS) : Prop :=
  ∀ f ∈ fs.files, f.1 ≠ [] ∧ f.1.head? ≠ some '/'

theorem goodFiles_writeFile (fs : FS) (p c : List Char) (hg : goodFiles fs)
    (hp1 : p ≠ []) (hp2 : p.head? ≠ some '/') :
    goodFiles (writeFile fs p c) := by
  intro g hgm
  rcases mem_writeList p c fs.files g hgm with rfl | hmem
  · exact ⟨hp1, hp2⟩
  · exact hg g hmem

theorem splitPath_ne_nil (p : List Char) : splitPath p ≠ [] := by
  cases p with
  | nil => simp [splitPath]
  | cons c r =>
    rw [splitPath]
    by_cases hc : c = '/'
    · simp [hc]
    · rw [if_neg hc]
      cases hsp : splitPath r with
      | nil => simp
      | cons s t => simp

theorem joinSegs_splitPath (p : List Char) : joinSegs (splitPath p) = p := by
  induction p with
  | nil => rfl
  | cons c rest ih =>
    by_cases hc : c = '/'
    · subst hc
      rw [splitPath, if_pos rfl]
      cases hsp : splitPath rest with
      | nil => exact absurd hsp (splitPath_ne_nil rest)
      | cons s t =>
        rw [hsp] at ih
        show [] ++ '/' :: joinSegs (s :: t) = '/' :: rest
        rw [List.nil_append, ih]
    · rw [splitPath, if_neg hc]
      cases hsp : splitPath rest with
      | nil => exact absurd hsp (splitPath_ne_nil rest)
      | cons s t =>
        rw [hsp] at ih
        cases t with
        | nil => exact congrArg (List.cons c) (show s = rest from ih)
        | cons r' t' =>
          exact congrArg (List.cons c)
            (show s ++ '/' :: joinSegs (r' :: t') = rest from ih)

theorem self_mem_ancestorPaths (p : List Char) : p ∈ ancestorPaths p := by
  rw [ancestorPaths]
  have hlen : 0 < (splitPath p).length :=
    List.length_pos.mpr (splitPath_ne_nil p)
  refine List.mem_map.mpr ⟨(splitPath p).length - 1, List.mem_range.mpr ?_, ?_⟩
  · omega
  · rw [Nat.sub_add_cancel hlen, List.take_length, joinSegs_splitPath]

theorem ancestorPaths_abs (p : List Char) (hp : p.head? = some '/') :
    ∀ a ∈ ancestorPaths p, a = [] ∨ a.head? = some '/' := by
  intro a ha
  cases p with
  | nil => simp at hp
  | cons c q =>
    have hc : c = '/' := by simpa using hp
    subst hc
    have hsegs : splitPath ('/' :: q) = [] :: splitPath q := by
      rw [splitPath, if_pos rfl]
    rw [ancestorPaths, hsegs] at ha
    obtain ⟨i, hi, rfl⟩ := List.mem_map.mp ha
    cases i with
    | zero =>
      left
      rfl
    | succ j =>
      right
      rw [List.mem_range, List.length_cons] at hi
      have hj : j < (splitPath q).length := by omega
      cases hq : splitPath q with
      | nil => exact absurd hq (splitPath_ne_nil q)
      | cons s t => rfl

theorem mem_foldl_insertDir_left (l : List (List Char))
    (ds : List (List Char)) (d : List Char) (h : d ∈ ds) :
    d ∈ l.foldl insertDir ds := by
  induction l generalizing ds with
  | nil => exact h
  | cons x t ih =>
    apply ih
    show d ∈ (if x ∈ ds then ds else ds ++ [x])
    split_ifs with hd
    · exact h
    · exact List.mem_append_left _ h

theorem mem_foldl_insertDir (l : List (List Char)) (ds : List (List Char))
    (d : List Char) (h : d ∈ l) : d ∈ l.foldl insertDir ds := by
  induction l generalizing ds with
  | nil => simp at h
  | cons x t ih =>
    rcases List.mem_cons.mp h with rfl | hmem
    · exact mem_foldl_insertDir_left t (insertDir ds d) d (by
        show d ∈ (if d ∈ ds then ds else ds ++ [d])
        split_ifs with hd
        · exact hd
        · exact List.mem_append_right _ (by simp))
    · exact ih _ hmem

/-- On a state whose files are all relative, creating an absolute
directory always succeeds and only extends the directory list. -/
theorem makedirs_abs_ok (fs : FS) (p : List Char) (hg : goodFiles fs)
    (hp : p.head? = some '/') :
    makedirs fs p true =
      .ok ⟨fs.files, (ancestorPaths p).foldl insertDir fs.dirs⟩ := by
  have h₁ : ¬((ancestorPaths p).any
      (fun a => fs.files.any (fun f => f.1 = a)) = true) := by
    intro hany
    simp only [List.any_eq_true, decide_eq_true_eq] at hany
    obtain ⟨a, ha, f, hf, hfa⟩ := hany
    rcases ancestorPaths_abs p hp a ha with rfl | hahead
    · exact (hg f hf).1 hfa
    · exact (hg f hf).2 (by rw [hfa]; exact hahead)
  have h₂ : ¬(true = false ∧ p ∈ fs.dirs) := by simp
  rw [makedirs, if_neg h₁, if_neg h₂]

theorem makedirs_ok_files (fs : FS) (p : List Char) (b : Bool) (fs' : FS)
    (h : makedirs fs p b = .ok fs') : fs'.files = fs.files := by
  rw [makedirs] at h
  by_cases h1 : ((ancestorPaths p).any
      (fun a => fs.files.any (fun f => f.1 = a))) = true
  · rw [if_pos h1] at h
    exact absurd h (by simp)
  · rw [if_neg h1] at h
    by_cases h2 : b = false ∧ p ∈ fs.dirs
    · rw [if_pos h2] at h
      exact absurd h (by simp)
    · rw [if_neg h2] at h
      injection h with h3
      rw [← h3]

/-! ### C9: get_checkpoint_and_refs_dir always writes ./main -/

/-- C9: whenever the Ref Resolver succeeds, `get_checkpoint_and_refs_dir`
leaves the local file `main` containing the resolved hash — for both values
of the `mkdir` flag, because the resolver (and its fixed-filename write) is
invoked before any path computation; `mkdir` does not suppress it. -/
theorem get_checkpoint_and_refs_dir_writes_main (cache : List Char)
    (store : List Char → List Char → Option (List Char))
    (model_id uri : List Char) (mk : Bool) (fs : FS) (h : List Char) (fs₁ : FS)
    (hh : get_hash_from_bucket store uri fs = (.ok h, fs₁)) :
    lookupFile (get_checkpoint_and_refs_dir cache store model_id uri mk fs).2
      "main".data = some h := by
  obtain ⟨bucket, pfx, raw, hp, hs, hraw, hfs₁⟩ :=
    get_hash_ok_inv store uri fs h fs₁ hh
  have hlook : lookupFile fs₁ "main".data = some h := by
    rw [hfs₁]
    exact lookupList_writeList _ _ _
  have hfiles : ∀ fs' : FS, fs'.files = fs₁.files →
      lookupFile fs' "main".data = some h := by
    intro fs' hf
    rw [lookupFile, hf]
    exact hlook
  simp only [get_checkpoint_and_refs_dir, hh]
  cases mk with
  | false => simpa using hlook
  | true =>
    simp only [if_true]
    split
    · exact hlook
    · rename_i fs₂ hm2
      split
      · exact hfiles fs₂ (makedirs_ok_files _ _ _ _ hm2)
      · rename_i fs₃ hm3
        exact hfiles fs₃
          ((makedirs_ok_files _ _ _ _ hm3).trans
            (makedirs_ok_files _ _ _ _ hm2))

/-- Witness for C9 with `mkdir = false`: even then the file `main` holds
the hash. -/
theorem get_checkpoint_and_refs_dir_writes_main_example :
    lookupFile (get_checkpoint_and_refs_dir "/cache".data storeC2
      "org/model-a".data "s3://b/models/llama".data false fsEmpty).2
      "main".data = some "abc123".data :=
  get_checkpoint_and_refs_dir_writes_main "/cache".data storeC2
    "org/model-a".data "s3://b/models/llama".data false fsEmpty
    "abc123".data (writeFile fsEmpty "main".data "abc123".data) (by decide)

/-! ### C7: InvalidURI from download_model after the root was created -/

/-- C7: when `download_model` is called with a URI lacking the `"s3://"`
scheme, it fails with `InvalidURI` — but only after step 1 already created
the local destination root (`get_download_path`'s result), so the
filesystem state is changed even though the operation fails, and no cleanup
happens. -/
theorem download_model_invalid_uri_after_mkdir
    (store : List Char → List Char → Option (List Char))
    (listKeys : List Char → List (List Char)) (tok : Bool)
    (uri : List Char) (fs : FS) (hg : goodFiles fs)
    (hbad : ("s3://".data).isPrefixOf uri = false) :
    (download_model "/cache".data store listKeys "org/model-a".data uri tok
      fs).1 = .error (.invalidURI uri) ∧
    get_download_path "/cache".data "org/model-a".data ∈
      (download_model "/cache".data store listKeys "org/model-a".data uri tok
        fs).2.dirs := by
  have hpath : get_download_path "/cache".data "org/model-a".data =
      "/cache/models--org--model-a".data := by decide
  have hmk := makedirs_abs_ok fs "/cache/models--org--model-a".data hg
    (by decide)
  have hparse : parse_s3_uri uri = .error (.invalidURI uri) := by
    rw [parse_s3_uri,
      if_neg (show ¬(("s3://".data).isPrefixOf uri = true) by
        rw [hbad]; simp)]
  constructor
  · simp only [download_model, hpath, hmk, hparse]
  · simp only [download_model, hpath, hmk, hparse]
    exact mem_foldl_insertDir _ _ _ (self_mem_ancestorPaths _)

/-- Witness for C7 at `"http://x/y"` on the empty filesystem. -/
theorem download_model_invalid_uri_after_mkdir_example :
    (download_model "/cache".data storeC2 listKeysC1 "org/model-a".data
      "http://x/y".data false fsEmpty).1 =
      .error (.invalidURI "http://x/y".data) ∧
    get_download_path "/cache".data "org/model-a".data ∈
      (download_model "/cache".data storeC2 listKeysC1 "org/model-a".data
        "http://x/y".data false fsEmpty).2.dirs :=
  download_model_invalid_uri_after_mkdir storeC2 listKeysC1 false
    "http://x/y".data fsEmpty (fun f hf => absurd hf (List.not_mem_nil f))
    (by decide)

/-! ### C5: the Path Resolver -/

theorem get_checkpoint_eval_ok
    (store : List Char → List Char → Option (List Char))
    (uri : List Char) (fs : FS) (h : List Char) (fs₁ : FS)
    (hg : goodFiles fs)
    (hh : get_hash_from_bucket store uri fs = (.ok h, fs₁))
    (hhead : h.head? ≠ some '/') :
    ∃ fs₃,
      get_checkpoint_and_refs_dir "/cache".data store "org/model-a".data uri
        true fs =
        (.ok ("/cache/models--org--model-a/snapshots/".data ++ h,
          "/cache/models--org--model-a/refs".data), fs₃) ∧
      "/cache/models--org--model-a/refs".data ∈ fs₃.dirs ∧
      ("/cache/models--org--model-a/snapshots/".data ++ h) ∈ fs₃.dirs ∧
      fs₃.files = fs₁.files := by
  obtain ⟨bucket, pfx, raw, hp, hs, hraw, hfs₁⟩ :=
    get_hash_ok_inv store uri fs h fs₁ hh
  have hg₁ : goodFiles fs₁ := by
    rw [hfs₁]
    exact goodFiles_writeFile fs "main".data h hg (by decide) (by decide)
  have hpath : osJoin "/cache".data
      ("models--".data ++ replaceSlash "org/model-a".data) =
      "/cache/models--org--model-a".data := by decide
  have hrefs : osJoin "/cache/models--org--model-a".data "refs".data =
      "/cache/models--org--model-a/refs".data := by decide
  have hsnap : osJoin "/cache/models--org--model-a".data "snapshots".data =
      "/cache/models--org--model-a/snapshots".data := by decide
  have hck : osJoin "/cache/models--org--model-a/snapshots".data h =
      "/cache/models--org--model-a/snapshots/".data ++ h := by
    rw [osJoin, if_neg hhead, if_neg (by decide), if_neg (by decide)]
    rfl
  have hm1 := makedirs_abs_ok fs₁ "/cache/models--org--model-a/refs".data hg₁
    (by decide)
  have hm2 := makedirs_abs_ok
    ⟨fs₁.files, (ancestorPaths "/cache/models--org--model-a/refs".data).foldl
      insertDir fs₁.dirs⟩
    ("/cache/models--org--model-a/snapshots/".data ++ h)
    (fun f hf => hg₁ f hf) rfl
  refine ⟨⟨fs₁.files,
    (ancestorPaths ("/cache/models--org--model-a/snapshots/".data ++ h)).foldl
      insertDir
      ((ancestorPaths "/cache/models--org--model-a/refs".data).foldl
        insertDir fs₁.dirs)⟩, ?_, ?_, ?_, rfl⟩
  · simp only [get_checkpoint_and_refs_dir, hh, hpath, hrefs, hsnap, hck,
      if_true, hm1, hm2]
  · exact mem_foldl_insertDir_left _ _ _
      (mem_foldl_insertDir _ _ _ (self_mem_ancestorPaths _))
  · exact mem_foldl_insertDir _ _ _ (self_mem_ancestorPaths _)

/-- C5: with model id `"org/model-a"` and cache root `"/cache"`, the Path
Resolver derives root `/cache/models--org--model-a` (every `'/'` of the
model id replaced by `"--"`), returns
`(<root>/snapshots/<hash>, <root>/refs)` with the Ref Resolver's hash; with
`mkdir = true` both directories exist afterwards and repeating the call
with the same arguments does not fail and returns the same pair;
`get_download_path` returns the same root with no store interaction. -/
theorem get_checkpoint_and_refs_dir_spec
    (store : List Char → List Char → Option (List Char))
    (uri : List Char) (fs : FS) (h : List Char) (fs₁ : FS)
    (hg : goodFiles fs)
    (hh : get_hash_from_bucket store uri fs = (.ok h, fs₁))
    (hhead : h.head? ≠ some '/') :
    get_download_path "/cache".data "org/model-a".data =
      "/cache/models--org--model-a".data ∧
    ∃ fs₃,
      get_checkpoint_and_refs_dir "/cache".data store "org/model-a".data uri
        true fs =
        (.ok ("/cache/models--org--model-a/snapshots/".data ++ h,
          "/cache/models--org--model-a/refs".data), fs₃) ∧
      "/cache/models--org--model-a/refs".data ∈ fs₃.dirs ∧
      ("/cache/models--org--model-a/snapshots/".data ++ h) ∈ fs₃.dirs ∧
      ∃ fs₅,
        get_checkpoint_and_refs_dir "/cache".data store "org/model-a".data uri
          true fs₃ =
          (.ok ("/cache/models--org--model-a/snapshots/".data ++ h,
            "/cache/models--org--model-a/refs".data), fs₅) := by
  refine ⟨by decide, ?_⟩
  obtain ⟨fs₃, heq, hrefs, hck, hfiles⟩ :=
    get_checkpoint_eval_ok store uri fs h fs₁ hg hh hhead
  obtain ⟨bucket, pfx, raw, hp, hs, hraw, hfs₁⟩ :=
    get_hash_ok_inv store uri fs h fs₁ hh
  have hg₁ : goodFiles fs₁ := by
    rw [hfs₁]
    exact goodFiles_writeFile fs "main".data h hg (by decide) (by decide)
  have hh₃ : get_hash_from_bucket store uri fs₃ =
      (.ok h, writeFile fs₃ "main".data h) := by
    have hc := get_hash_eval uri bucket pfx hp store raw hs fs₃
    rw [← hraw] at hc
    exact hc
  have hg₃ : goodFiles fs₃ := by
    intro f hf
    rw [hfiles] at hf
    exact hg₁ f hf
  obtain ⟨fs₅, heq₅, _, _, _⟩ :=
    get_checkpoint_eval_ok store uri fs₃ h (writeFile fs₃ "main".data h)
      hg₃ hh₃ hhead
  exact ⟨fs₃, heq, hrefs, hck, fs₅, heq₅⟩

/-- Witness for C5 with the hash `"abc123"` resolved from the concrete
store. -/
theorem get_checkpoint_and_refs_dir_spec_example :
    get_download_path "/cache".data "org/model-a".data =
      "/cache/models--org--model-a".data ∧
    ∃ fs₃,
      get_checkpoint_and_refs_dir "/cache".data storeC2 "org/model-a".data
        "s3://b/models/llama".data true fsEmpty =
        (.ok ("/cache/models--org--model-a/snapshots/".data ++ "abc123".data,
          "/cache/models--org--model-a/refs".data), fs₃) ∧
      "/cache/models--org--model-a/refs".data ∈ fs₃.dirs ∧
      ("/cache/models--org--model-a/snapshots/".data ++ "abc123".data) ∈
        fs₃.dirs ∧
      ∃ fs₅,
        get_checkpoint_and_refs_dir "/cache".data storeC2 "org/model-a".data
          "s3://b/models/llama".data true fs₃ =
          (.ok ("/cache/models--org--model-a/snapshots/".data ++
            "abc123".data, "/cache/models--org--model-a/refs".data), fs₅) :=
  get_checkpoint_and_refs_dir_spec storeC2 "s3://b/models/llama".data fsEmpty
    "abc123".data (writeFile fsEmpty "main".data "abc123".data)
    (fun f hf => absurd hf (List.not_mem_nil f)) (by decide) (by decide)

end UtilsOffline
